import Mathlib

/-!
Verification of the serde-matcher query engine (src/lib.rs).

The crate compiles a MongoDB-style query, given as a JSON value tree, into an
`ObjMatcher` and evaluates it against candidate JSON values.  This file is a
shallow embedding of that code:

* `Value` mirrors `serde_json::Value` (an external collaborator of the crate);
  numbers are modelled as integers, which covers every number the crate's
  queries and tests exercise.
* `beqValue` mirrors `PartialEq` on `serde_json::Value` (arrays elementwise
  and ordered, objects key-based and order-insensitive, as for
  `serde_json::Map`).
* `deserializeOM` mirrors serde's derived, untagged `Deserialize` for
  `ObjMatcher`: the variants are tried in declaration order
  Eq, In, Ne, Nin, And, Not, Or, Value; an operator struct succeeds on a JSON
  object carrying its renamed field (`"$eq"`, ...) with a payload of the
  declared shape, unknown keys being ignored, and the `Value` variant accepts
  anything.  (The model covers object-shaped operator payload decoding, the
  only path the crate's query grammar reaches.)
* `tryIntoOperator` mirrors `try_into_operator`, `ObjMatcher.matches` mirrors
  `MatchesValue::matches`, and `from_str` mirrors the crate's `from_str`
  entry point, minus the text-to-`Value` parse that is pure pass-through to
  `serde_json`.

Rust panics (the `.unwrap()` calls on `serde_json::from_value` inside
`try_into_operator` and the `todo!` arm of the literal matcher) are modelled
as `Except.error` with a `MatchPanic` tag naming the panic site.
-/

set_option linter.unusedVariables false

/-- JSON value tree, mirroring `serde_json::Value`.  Objects are ordered
key/value lists; well-formed serde_json maps have unique keys. -/
inductive Value where
  | null
  | bool (b : Bool)
  | num (n : Int)
  | str (s : String)
  | arr (items : List Value)
  | obj (fields : List (String × Value))

/-- Lookup of a key in an object's field list (`serde_json::Map::get` /
`contains_key`); returns the first binding. -/
def objGet : List (String × Value) → String → Option Value
  | [], _ => none
  | (k, v) :: rest, key => if k = key then some v else objGet rest key

/-- Square-bracket indexing of `serde_json::Value` (`other[key]`): yields
`Null` when the value is not an object or does not have the key. -/
def Value.index (v : Value) (key : String) : Value :=
  match v with
  | .obj fields => (objGet fields key).getD .null
  | _ => .null

mutual

/-- Size measure on values, used for termination of the evaluator. -/
def vsize : Value → Nat
  | .null => 1
  | .bool _ => 1
  | .num _ => 1
  | .str _ => 1
  | .arr items => 1 + varrSize items
  | .obj fields => 1 + vobjSize fields

/-- Size measure on array element lists. -/
def varrSize : List Value → Nat
  | [] => 0
  | v :: rest => 2 + vsize v + varrSize rest

/-- Size measure on object field lists. -/
def vobjSize : List (String × Value) → Nat
  | [] => 0
  | (_, v) :: rest => 2 + vsize v + vobjSize rest

end

theorem objGet_vsize_le {fields : List (String × Value)} {key : String}
    {p : Value} (h : objGet fields key = some p) :
    2 + vsize p ≤ vobjSize fields := by
  induction fields with
  | nil => simp [objGet] at h
  | cons kv rest ih =>
    obtain ⟨k, v⟩ := kv
    rw [objGet] at h
    split at h
    · cases h
      simp [vobjSize]
    · have := ih h
      simp [vobjSize]
      omega

mutual

/-- Structural equality of JSON values: `PartialEq` for `serde_json::Value`.
Numbers compare numerically, arrays elementwise in order, objects by key
lookup, order-insensitively, with equal sizes. -/
def beqValue : Value → Value → Bool
  | .null, .null => true
  | .bool a, .bool b => a == b
  | .num a, .num b => a == b
  | .str a, .str b => a == b
  | .arr xs, .arr ys => beqArr xs ys
  | .obj xs, .obj ys => xs.length == ys.length && beqObjFields xs ys
  | _, _ => false

/-- Elementwise equality of array contents (`PartialEq` for `Vec<Value>`). -/
def beqArr : List Value → List Value → Bool
  | [], [] => true
  | x :: xs, y :: ys => beqValue x y && beqArr xs ys
  | _, _ => false

/-- Every field of the first object occurs, with an equal value, in the
second (the `iter().all(...)` half of `Map`'s `PartialEq`). -/
def beqObjFields : List (String × Value) → List (String × Value) → Bool
  | [], _ => true
  | (k, v) :: rest, other =>
    (match objGet other k with
     | some w => beqValue v w
     | none => false) && beqObjFields rest other

end

/-- The compiled query representation of src/lib.rs: the untagged enum
`ObjMatcher`.  Operator payloads are nested matchers (`Box<ObjMatcher>`) or
lists of them (`Vec<ObjMatcher>`); `Value` is the literal fallback. -/
inductive ObjMatcher where
  | Eq (val : ObjMatcher)
  | In (val : List ObjMatcher)
  | Ne (val : ObjMatcher)
  | Nin (val : List ObjMatcher)
  | And (val : List ObjMatcher)
  | Not (val : ObjMatcher)
  | Or (val : List ObjMatcher)
  | Value (val : Value)

mutual

/-- Size measure on matchers, used for termination of the evaluator. -/
def msize : ObjMatcher → Nat
  | .Eq m => 1 + msize m
  | .In l => 1 + mlistSize l
  | .Ne m => 1 + msize m
  | .Nin l => 1 + mlistSize l
  | .And l => 1 + mlistSize l
  | .Not m => 1 + msize m
  | .Or l => 1 + mlistSize l
  | .Value v => 1 + vsize v

/-- Size measure on matcher lists. -/
def mlistSize : List ObjMatcher → Nat
  | [] => 0
  | m :: rest => 1 + msize m + mlistSize rest

end

/-- The two panic sites of the crate, used as the error type of the model:
`decodeUnwrap` is the `.unwrap()` on `serde_json::from_value` inside
`try_into_operator` (malformed operator payload); `unsupportedValue` is the
`todo!("not implemented value match ...")` arm reached by literal kinds other
than `Number` and `Object`. -/
inductive MatchPanic where
  | decodeUnwrap
  | unsupportedValue
deriving DecidableEq

mutual

/-- Serde's derived, untagged `Deserialize` for `ObjMatcher`, as invoked on
operator payloads (`Box<ObjMatcher>` and the elements of `Vec<ObjMatcher>`):
variants are tried in declaration order; a struct variant succeeds on an
object that has its renamed key with a payload of the declared shape (other
keys ignored), and the `Value` fallback accepts any value. -/
def deserializeOM (v : Value) : ObjMatcher :=
  match v with
  | .obj fields =>
    match h1 : objGet fields "$eq" with
    | some p => .Eq (deserializeOM p)
    | none =>
      match h2 : objGet fields "$in" with
      | some (.arr l) => .In (deserializeList l)
      | _ =>
        match h3 : objGet fields "$ne" with
        | some p => .Ne (deserializeOM p)
        | none =>
          match h4 : objGet fields "$nin" with
          | some (.arr l) => .Nin (deserializeList l)
          | _ =>
            match h5 : objGet fields "$and" with
            | some (.arr l) => .And (deserializeList l)
            | _ =>
              match h6 : objGet fields "$not" with
              | some p => .Not (deserializeOM p)
              | none =>
                match h7 : objGet fields "$or" with
                | some (.arr l) => .Or (deserializeList l)
                | _ => .Value v
  | _ => .Value v
termination_by vsize v
decreasing_by
  all_goals simp_wf
  all_goals first
    | (have hb := objGet_vsize_le h1; simp only [vsize] at hb ⊢; omega)
    | (have hb := objGet_vsize_le h2; simp only [vsize] at hb ⊢; omega)
    | (have hb := objGet_vsize_le h3; simp only [vsize] at hb ⊢; omega)
    | (have hb := objGet_vsize_le h4; simp only [vsize] at hb ⊢; omega)
    | (have hb := objGet_vsize_le h5; simp only [vsize] at hb ⊢; omega)
    | (have hb := objGet_vsize_le h6; simp only [vsize] at hb ⊢; omega)
    | (have hb := objGet_vsize_le h7; simp only [vsize] at hb ⊢; omega)

/-- Untagged deserialization of each element of a `Vec<ObjMatcher>` payload. -/
def deserializeList : List Value → List ObjMatcher
  | [] => []
  | v :: rest => deserializeOM v :: deserializeList rest
termination_by l => varrSize l
decreasing_by
  all_goals simp_wf
  all_goals simp only [varrSize]
  all_goals omega

end

theorem deser_bound (fuel : Nat) :
    (∀ v, vsize v ≤ fuel → msize (deserializeOM v) ≤ 1 + vsize v) ∧
    (∀ l, varrSize l ≤ fuel →
      mlistSize (deserializeList l) ≤ varrSize l) := by
  induction fuel with
  | zero =>
    constructor
    · intro v hv; cases v <;> simp [vsize] at hv
    · intro l hl
      cases l with
      | nil => simp [deserializeList, mlistSize]
      | cons v rest => simp [varrSize] at hl
  | succ n ih =>
    have hval : ∀ v, vsize v ≤ n + 1 → msize (deserializeOM v) ≤ 1 + vsize v := by
      intro v hv
      match v with
      | .null | .bool _ | .num _ | .str _ | .arr _ =>
        simp [deserializeOM, msize]
      | .obj fields =>
        rw [deserializeOM]
        have hfields : vobjSize fields ≤ n := by
          simp only [vsize] at hv; omega
        split
        · rename_i p h1
          have hp := objGet_vsize_le h1
          have := ih.1 p (by omega)
          simp only [msize, vsize]
          omega
        · split
          · rename_i l h2
            have hp := objGet_vsize_le h2
            simp only [vsize] at hp
            have := ih.2 l (by omega)
            simp only [msize, vsize]
            omega
          · split
            · rename_i p h3
              have hp := objGet_vsize_le h3
              have := ih.1 p (by omega)
              simp only [msize, vsize]
              omega
            · split
              · rename_i l h4
                have hp := objGet_vsize_le h4
                simp only [vsize] at hp
                have := ih.2 l (by omega)
                simp only [msize, vsize]
                omega
              · split
                · rename_i l h5
                  have hp := objGet_vsize_le h5
                  simp only [vsize] at hp
                  have := ih.2 l (by omega)
                  simp only [msize, vsize]
                  omega
                · split
                  · rename_i p h6
                    have hp := objGet_vsize_le h6
                    have := ih.1 p (by omega)
                    simp only [msize, vsize]
                    omega
                  · split
                    · rename_i l h7
                      have hp := objGet_vsize_le h7
                      simp only [vsize] at hp
                      have := ih.2 l (by omega)
                      simp only [msize, vsize]
                      omega
                    · simp only [msize, vsize]
                      omega
    refine ⟨hval, ?_⟩
    intro l hl
    induction l with
    | nil => simp [deserializeList, mlistSize]
    | cons v rest ihl =>
      simp only [varrSize] at hl
      have h1 := hval v (by omega)
      have h2 := ihl (by omega)
      simp only [deserializeList, mlistSize, varrSize]
      omega

theorem deserializeOM_size (v : Value) :
    msize (deserializeOM v) ≤ 1 + vsize v :=
  (deser_bound (vsize v)).1 v le_rfl

theorem deserializeList_size (l : List Value) :
    mlistSize (deserializeList l) ≤ varrSize l :=
  (deser_bound (varrSize l)).2 l le_rfl

/-- The `try_into_operator` function of src/lib.rs: on an object value, the
reserved keys are checked in the fixed order `$eq`, `$in`, `$ne`, `$nin`,
`$and`, `$not`, `$or`; the first key present selects the operator, whose
whole object is then decoded by `serde_json::from_value` with `.unwrap()` --
so a list-shaped payload of the wrong shape panics (`Except.error
.decodeUnwrap`), while the single-matcher payloads of `$eq`, `$ne` and `$not`
always decode.  Non-objects and objects without a reserved key give `none`. -/
def tryIntoOperator (value : Value) : Option (Except MatchPanic ObjMatcher) :=
  match value with
  | .obj fields =>
    match objGet fields "$eq" with
    | some p => some (.ok (.Eq (deserializeOM p)))
    | none =>
      match objGet fields "$in" with
      | some (.arr l) => some (.ok (.In (deserializeList l)))
      | some _ => some (.error .decodeUnwrap)
      | none =>
        match objGet fields "$ne" with
        | some p => some (.ok (.Ne (deserializeOM p)))
        | none =>
          match objGet fields "$nin" with
          | some (.arr l) => some (.ok (.Nin (deserializeList l)))
          | some _ => some (.error .decodeUnwrap)
          | none =>
            match objGet fields "$and" with
            | some (.arr l) => some (.ok (.And (deserializeList l)))
            | some _ => some (.error .decodeUnwrap)
            | none =>
              match objGet fields "$not" with
              | some p => some (.ok (.Not (deserializeOM p)))
              | none =>
                match objGet fields "$or" with
                | some (.arr l) => some (.ok (.Or (deserializeList l)))
                | some _ => some (.error .decodeUnwrap)
                | none => none
  | _ => none

theorem tryIntoOperator_size {v : Value} {m : ObjMatcher}
    (h : tryIntoOperator v = some (.ok m)) : msize m ≤ vsize v := by
  match v with
  | .null | .bool _ | .num _ | .str _ | .arr _ => simp [tryIntoOperator] at h
  | .obj fields =>
    rw [tryIntoOperator] at h
    split at h
    · rename_i p h1
      cases h
      have hb := objGet_vsize_le h1
      have hd := deserializeOM_size p
      simp only [msize, vsize]
      omega
    · split at h
      · rename_i l h2
        cases h
        have hb := objGet_vsize_le h2
        have hd := deserializeList_size l
        simp only [msize, vsize] at hb ⊢
        omega
      · cases h
      · split at h
        · rename_i p h3
          cases h
          have hb := objGet_vsize_le h3
          have hd := deserializeOM_size p
          simp only [msize, vsize]
          omega
        · split at h
          · rename_i l h4
            cases h
            have hb := objGet_vsize_le h4
            have hd := deserializeList_size l
            simp only [msize, vsize] at hb ⊢
            omega
          · cases h
          · split at h
            · rename_i l h5
              cases h
              have hb := objGet_vsize_le h5
              have hd := deserializeList_size l
              simp only [msize, vsize] at hb ⊢
              omega
            · cases h
            · split at h
              · rename_i p h6
                cases h
                have hb := objGet_vsize_le h6
                have hd := deserializeOM_size p
                simp only [msize, vsize]
                omega
              · split at h
                · rename_i l h7
                  cases h
                  have hb := objGet_vsize_le h7
                  have hd := deserializeList_size l
                  simp only [msize, vsize] at hb ⊢
                  omega
                · cases h
                · cases h

mutual

/-- The `MatchesValue::matches` implementation for `ObjMatcher` in
src/lib.rs.  Operator variants delegate to their payload against the same
candidate; the `Value` variant first re-runs `try_into_operator` on the held
value and, when no operator applies, matches a `Number` literal numerically,
an `Object` literal field by field, and panics (`todo!`) on any other kind. -/
def ObjMatcher.matches : ObjMatcher → Value → Except MatchPanic Bool
  | .Eq v, other => ObjMatcher.matches v other
  | .In l, other => anyMatch l other
  | .Ne v, other => (ObjMatcher.matches v other).map (fun b => !b)
  | .Nin l, other => noneMatch l other
  | .And l, other => allMatch l other
  | .Not v, other =>
    (ObjMatcher.matches v other).map (fun b => if b then false else true)
  | .Or l, other => anyMatch l other
  | .Value value, other =>
    match hop : tryIntoOperator value with
    | some (.ok m) => ObjMatcher.matches m other
    | some (.error k) => .error k
    | none =>
      match value with
      | .num n =>
        match other with
        | .num n2 => .ok (n == n2)
        | _ => .ok false
      | .obj o => matchFields o other
      | _ => .error .unsupportedValue
termination_by m _ => msize m
decreasing_by
  all_goals simp_wf
  all_goals simp only [msize, mlistSize]
  all_goals first
    | omega
    | (have hb := tryIntoOperator_size hop; omega)
    | (simp only [vsize, vobjSize]; omega)

/-- The loop shared verbatim by `InOperator::matches` and
`OrOperator::matches`: return true at the first element that matches. -/
def anyMatch : List ObjMatcher → Value → Except MatchPanic Bool
  | [], _ => .ok false
  | m :: rest, other =>
    (ObjMatcher.matches m other).bind
      (fun b => if b then .ok true else anyMatch rest other)
termination_by l _ => mlistSize l
decreasing_by
  all_goals simp_wf
  all_goals simp only [mlistSize]
  all_goals omega

/-- The loop of `NinOperator::matches`: return false at the first element
that matches. -/
def noneMatch : List ObjMatcher → Value → Except MatchPanic Bool
  | [], _ => .ok true
  | m :: rest, other =>
    (ObjMatcher.matches m other).bind
      (fun b => if b then .ok false else noneMatch rest other)
termination_by l _ => mlistSize l
decreasing_by
  all_goals simp_wf
  all_goals simp only [mlistSize]
  all_goals omega

/-- The loop of `AndOperator::matches`: return false at the first element
that fails to match. -/
def allMatch : List ObjMatcher → Value → Except MatchPanic Bool
  | [], _ => .ok true
  | m :: rest, other =>
    (ObjMatcher.matches m other).bind
      (fun b => if b then allMatch rest other else .ok false)
termination_by l _ => mlistSize l
decreasing_by
  all_goals simp_wf
  all_goals simp only [mlistSize]
  all_goals omega

/-- The field loop of the literal-object branch of `ObjMatcher::matches`:
each field value is re-run through `try_into_operator`; an operator field
must match the candidate's value at the same key (`other[key]`, Null when
missing), any other field value is compared by `!=` to `other[key]`. -/
def matchFields : List (String × Value) → Value → Except MatchPanic Bool
  | [], _ => .ok true
  | (key, value) :: rest, other =>
    match hop : tryIntoOperator value with
    | some (.ok m) =>
      (ObjMatcher.matches m (other.index key)).bind
        (fun b => if b then matchFields rest other else .ok false)
    | some (.error k) => .error k
    | none =>
      if beqValue value (other.index key) then matchFields rest other
      else .ok false
termination_by o _ => vobjSize o
decreasing_by
  all_goals simp_wf
  all_goals simp only [vobjSize]
  all_goals first
    | omega
    | (have hb := tryIntoOperator_size hop; omega)

end

/-- The outcome of building a matcher, as seen by a caller of the crate's
`from_str`: a matcher, a returned `serde_json::Error` (`Result::Err`), or a
process panic. -/
inductive BuildResult where
  | ok (m : ObjMatcher)
  | err
  | panicked (k : MatchPanic)

/-- The crate's `from_str` entry point.  Parsing the query text into a
`Value` is pure pass-through to `serde_json::from_str` and is elided: the
input arrives as the parsed value, so the `Result::Err` path (`BuildResult.err`),
which only text-level parse failure produces, never fires in the model. -/
def from_str (v : Value) : BuildResult :=
  match tryIntoOperator v with
  | some (.ok m) => .ok m
  | some (.error k) => .panicked k
  | none => .ok (.Value v)

theorem matches_value_op {value : Value} {m : ObjMatcher}
    (h : tryIntoOperator value = some (.ok m)) (other : Value) :
    ObjMatcher.matches (.Value value) other = ObjMatcher.matches m other := by
  rw [ObjMatcher.matches]
  split
  · rename_i m2 heq
    rw [h] at heq
    cases heq
    rfl
  · rename_i k heq
    rw [h] at heq
    cases heq
  · rename_i heq
    rw [h] at heq
    cases heq

theorem matches_value_panic {value : Value} {k : MatchPanic}
    (h : tryIntoOperator value = some (.error k)) (other : Value) :
    ObjMatcher.matches (.Value value) other = .error k := by
  rw [ObjMatcher.matches]
  split
  · rename_i m2 heq
    rw [h] at heq
    cases heq
  · rename_i k2 heq
    rw [h] at heq
    cases heq
    rfl
  · rename_i heq
    rw [h] at heq
    cases heq

theorem matches_value_obj {o : List (String × Value)}
    (h : tryIntoOperator (.obj o) = none) (other : Value) :
    ObjMatcher.matches (.Value (.obj o)) other = matchFields o other := by
  rw [ObjMatcher.matches]
  split
  · rename_i m2 heq
    rw [h] at heq
    cases heq
  · rename_i k heq
    rw [h] at heq
    cases heq
  · rfl

theorem matchFields_cons_op {value : Value} {m : ObjMatcher}
    (h : tryIntoOperator value = some (.ok m)) (key : String)
    (rest : List (String × Value)) (other : Value) :
    matchFields ((key, value) :: rest) other =
      (ObjMatcher.matches m (other.index key)).bind
        (fun b => if b then matchFields rest other else .ok false) := by
  rw [matchFields]
  split
  · rename_i m2 heq
    rw [h] at heq
    cases heq
    rfl
  · rename_i k2 heq
    rw [h] at heq
    cases heq
  · rename_i heq
    rw [h] at heq
    cases heq

theorem matchFields_cons_panic {value : Value} {k : MatchPanic}
    (h : tryIntoOperator value = some (.error k)) (key : String)
    (rest : List (String × Value)) (other : Value) :
    matchFields ((key, value) :: rest) other = .error k := by
  rw [matchFields]
  split
  · rename_i m2 heq
    rw [h] at heq
    cases heq
  · rename_i k2 heq
    rw [h] at heq
    cases heq
    rfl
  · rename_i heq
    rw [h] at heq
    cases heq

theorem matchFields_cons_literal {value : Value}
    (h : tryIntoOperator value = none) (key : String)
    (rest : List (String × Value)) (other : Value) :
    matchFields ((key, value) :: rest) other =
      (if beqValue value (other.index key) then matchFields rest other
       else .ok false) := by
  rw [matchFields]
  split
  · rename_i m2 heq
    rw [h] at heq
    cases heq
  · rename_i k2 heq
    rw [h] at heq
    cases heq
  · rfl

/-- A match result that is a verdict rather than a panic. -/
def noPanic : Except MatchPanic Bool → Bool
  | .ok _ => true
  | .error _ => false

/-- A match result that is the verdict true. -/
def okTrue : Except MatchPanic Bool → Bool
  | .ok true => true
  | _ => false

theorem allMatch_all (l : List ObjMatcher) (v : Value)
    (h : ∀ m ∈ l, noPanic (ObjMatcher.matches m v) = true) :
    allMatch l v = .ok (l.all fun m => okTrue (ObjMatcher.matches m v)) := by
  induction l with
  | nil => simp [allMatch]
  | cons m rest ih =>
    have hm := h m (List.mem_cons_self m rest)
    rw [allMatch]
    cases hmm : ObjMatcher.matches m v with
    | error k => rw [hmm] at hm; simp [noPanic] at hm
    | ok b =>
      cases b with
      | true =>
        have := ih (fun m2 hm2 => h m2 (List.mem_cons_of_mem _ hm2))
        simp [Except.bind, this, hmm, okTrue]
      | false => simp [Except.bind, hmm, okTrue]

theorem anyMatch_any (l : List ObjMatcher) (v : Value)
    (h : ∀ m ∈ l, noPanic (ObjMatcher.matches m v) = true) :
    anyMatch l v = .ok (l.any fun m => okTrue (ObjMatcher.matches m v)) := by
  induction l with
  | nil => simp [anyMatch]
  | cons m rest ih =>
    have hm := h m (List.mem_cons_self m rest)
    rw [anyMatch]
    cases hmm : ObjMatcher.matches m v with
    | error k => rw [hmm] at hm; simp [noPanic] at hm
    | ok b =>
      cases b with
      | true => simp [Except.bind, hmm, okTrue]
      | false =>
        have := ih (fun m2 hm2 => h m2 (List.mem_cons_of_mem _ hm2))
        simp [Except.bind, this, hmm, okTrue]

/-- C1, counterexample.  The query with object `{"$and": 5}` carrying the
reserved key `$and` with a non-list payload does not fail construction with a
decoding error returned to the caller: at the top level `from_str` panics
(the `.unwrap()` inside `try_into_operator`), which is not the `Result::Err`
path; and at a nested position (inside the payload of `$or`) construction
succeeds outright, producing a matcher, because serde's untagged
deserialization falls back to the `Value` variant for the malformed operator
object. -/
theorem C1_counterexample :
    from_str (.obj [("$and", .num 5)]) = .panicked .decodeUnwrap ∧
    from_str (.obj [("$and", .num 5)]) ≠ .err ∧
    from_str (.obj [("$or", .arr [.obj [("$and", .num 5)]])]) =
      .ok (.Or [.Value (.obj [("$and", .num 5)])]) := by
  refine ⟨?_, ?_, ?_⟩
  · simp [from_str, tryIntoOperator, objGet]
  · simp [from_str, tryIntoOperator, objGet]
  · simp [from_str, tryIntoOperator, objGet, deserializeOM, deserializeList]

/-- C1, amended.  A malformed reserved-operator payload is never silently
matched as a literal, but the failure mode is a panic, not a returned
decoding error: at the top level, constructing a matcher from
`{"$and": 5}` panics inside `try_into_operator`; nested below an operator,
the malformed object `{"$and": 5}` is deserialized as a literal `Value`
at construction (construction succeeds) and every later evaluation of the
resulting matcher panics at the `try_into_operator` re-check, for every
candidate. -/
theorem C1_amended :
    from_str (.obj [("$and", .num 5)]) = .panicked .decodeUnwrap ∧
    from_str (.obj [("$or", .arr [.obj [("$and", .num 5)]])]) =
      .ok (.Or [.Value (.obj [("$and", .num 5)])]) ∧
    ∀ cand : Value,
      ObjMatcher.matches (.Or [.Value (.obj [("$and", .num 5)])]) cand =
        .error .decodeUnwrap := by
  refine ⟨?_, ?_, ?_⟩
  · simp [from_str, tryIntoOperator, objGet]
  · simp [from_str, tryIntoOperator, objGet, deserializeOM, deserializeList]
  · intro cand
    simp [ObjMatcher.matches, anyMatch, tryIntoOperator, objGet, Except.bind]

/-- C2, counterexample.  Literal-object field values are not re-classified
recursively through the classifier: an operator expression nested below a
further plain-object level is compared by raw equality instead.  The literal
`{"a": {"b": {"$eq": 1}}}` rejects the candidate `{"a": {"b": 1}}` (verdict
false), although the classifier applied to the field value `{"b": {"$eq": 1}}`
(a literal, having no reserved top-level key) matches the candidate's value
`{"b": 1}` at that key, as the second conjunct shows. -/
theorem C2_counterexample :
    ObjMatcher.matches
      (.Value (.obj [("a", .obj [("b", .obj [("$eq", .num 1)])])]))
      (.obj [("a", .obj [("b", .num 1)])]) = .ok false ∧
    ObjMatcher.matches
      (.Value (.obj [("b", .obj [("$eq", .num 1)])]))
      (.obj [("b", .num 1)]) = .ok true := by
  constructor
  · simp [ObjMatcher.matches, matchFields, tryIntoOperator, objGet,
      Value.index, beqValue, beqObjFields, Except.bind]
  · simp [ObjMatcher.matches, matchFields, tryIntoOperator, objGet,
      deserializeOM, Value.index, beqValue, Except.bind]

/-- C2, amended.  For a literal-object matcher (an object with no reserved
top-level key), each field value is tested once through `try_into_operator`:
a field value that is itself an operator object must match, as the decoded
operator, the candidate's value at the same key; any other field value
(including a plain object with operators nested deeper) is compared to the
candidate's value at that key by raw structural equality, with no recursive
re-classification below a plain-object level.  All pairs must match
(implicit AND, short-circuiting at the first failing pair), and a literal
object with zero pairs matches every candidate. -/
theorem C2_amended :
    (∀ other : Value,
      ObjMatcher.matches (.Value (.obj [])) other = .ok true) ∧
    (∀ (o : List (String × Value)) (other : Value),
      tryIntoOperator (.obj o) = none →
      ObjMatcher.matches (.Value (.obj o)) other = matchFields o other) ∧
    (∀ (key : String) (value : Value) (rest : List (String × Value))
        (other : Value) (m : ObjMatcher),
      tryIntoOperator value = some (.ok m) →
      matchFields ((key, value) :: rest) other =
        (ObjMatcher.matches m (other.index key)).bind
          (fun b => if b then matchFields rest other else .ok false)) ∧
    (∀ (key : String) (value : Value) (rest : List (String × Value))
        (other : Value),
      tryIntoOperator value = none →
      matchFields ((key, value) :: rest) other =
        (if beqValue value (other.index key) then matchFields rest other
         else .ok false)) := by
  refine ⟨?_, ?_, ?_, ?_⟩
  · intro other
    rw [matches_value_obj (by simp [tryIntoOperator, objGet]) other]
    rw [matchFields]
  · intro o other h
    exact matches_value_obj h other
  · intro key value rest other m h
    exact matchFields_cons_op h key rest other
  · intro key value rest other h
    exact matchFields_cons_literal h key rest other

/-- C2, witness for the amended theorem at a concrete input: the literal
object `{"a": 1}` evaluates by the field loop. -/
theorem C2_amended_witness :
    ObjMatcher.matches (.Value (.obj [("a", .num 1)])) (.obj [("a", .num 1)]) =
      matchFields [("a", .num 1)] (.obj [("a", .num 1)]) :=
  C2_amended.2.1 [("a", .num 1)] (.obj [("a", .num 1)])
    (by simp [tryIntoOperator, objGet])

/-- A literal kind the evaluator does not implement: everything except
`Number` and `Object`. -/
def unsupportedLiteralKind : Value → Bool
  | .null => true
  | .bool _ => true
  | .str _ => true
  | .arr _ => true
  | .num _ => false
  | .obj _ => false

/-- C3.  When evaluation of a literal matcher reaches, at the top of the
literal, a kind other than Number or Object (Null, Bool, String or Array),
the engine fails with the distinct unsupported-value panic (`todo!` in the
source) rather than returning the verdict false, for every candidate. -/
theorem C3_unsupported_literal_kinds (v : Value) (cand : Value)
    (h : unsupportedLiteralKind v = true) :
    ObjMatcher.matches (.Value v) cand = .error .unsupportedValue := by
  cases v <;> simp [unsupportedLiteralKind] at h <;>
    simp [ObjMatcher.matches, tryIntoOperator]

/-- C3, witness: a String literal at the top of the matcher panics with the
unsupported-value kind against a concrete candidate. -/
theorem C3_witness :
    ObjMatcher.matches (.Value (.str "x")) (.num 0) = .error .unsupportedValue :=
  C3_unsupported_literal_kinds (.str "x") (.num 0) rfl

/-- C4, counterexample.  Evaluating a literal-object matcher against a
candidate lacking one of its keys can abort: for the literal
`{"a": {"$eq": "x"}}` against the empty object `{}`, the missing-key lookup
yields Null, the decoded `$eq` operator compares its String payload against
Null, and the evaluation panics at the unsupported String literal instead of
returning a verdict. -/
theorem C4_counterexample :
    ObjMatcher.matches (.Value (.obj [("a", .obj [("$eq", .str "x")])]))
      (.obj []) = .error .unsupportedValue := by
  simp [ObjMatcher.matches, matchFields, tryIntoOperator, objGet,
    deserializeOM, Value.index, Except.bind]

/-- C4, amended.  The lookup for a key the candidate object lacks yields the
Null placeholder and comparison proceeds against it: the verdict of a
single-pair literal object against any candidate lacking the key equals its
verdict against the empty object, so the key's absence itself never aborts
evaluation (though the pair's own matcher may still abort for independent
reasons, such as an unsupported literal kind); in particular the literal
`{"a": {"$eq": 1}}` against `{}` yields the verdict false. -/
theorem C4_amended :
    (∀ (o : List (String × Value)) (key : String),
      objGet o key = none → Value.index (.obj o) key = .null) ∧
    (∀ (key : String) (val : Value) (cand : Value),
      tryIntoOperator (.obj [(key, val)]) = none →
      Value.index cand key = .null →
      ObjMatcher.matches (.Value (.obj [(key, val)])) cand =
        ObjMatcher.matches (.Value (.obj [(key, val)])) (.obj [])) ∧
    ObjMatcher.matches (.Value (.obj [("a", .obj [("$eq", .num 1)])]))
      (.obj []) = .ok false := by
  refine ⟨?_, ?_, ?_⟩
  · intro o key h
    simp [Value.index, h]
  · intro key val cand h hidx
    rw [matches_value_obj h cand, matches_value_obj h (.obj [])]
    have hidx0 : Value.index (.obj []) key = .null := by
      simp [Value.index, objGet]
    cases hval : tryIntoOperator val with
    | none =>
      rw [matchFields_cons_literal hval, matchFields_cons_literal hval,
        hidx, hidx0]
      simp [matchFields]
    | some r =>
      cases r with
      | ok m =>
        rw [matchFields_cons_op hval, matchFields_cons_op hval, hidx, hidx0]
        cases ObjMatcher.matches m Value.null <;> simp [Except.bind] <;>
          simp [matchFields]
      | error k =>
        rw [matchFields_cons_panic hval, matchFields_cons_panic hval]
  · simp [ObjMatcher.matches, matchFields, tryIntoOperator, objGet,
      deserializeOM, Value.index, Except.bind]

/-- C4, witness for the amended theorem: the literal `{"a": {"$eq": 1}}`
against the candidate `{"b": 2}`, which lacks the key a, evaluates exactly as
against the empty object. -/
theorem C4_amended_witness :
    ObjMatcher.matches (.Value (.obj [("a", .obj [("$eq", .num 1)])]))
      (.obj [("b", .num 2)]) =
    ObjMatcher.matches (.Value (.obj [("a", .obj [("$eq", .num 1)])]))
      (.obj []) :=
  C4_amended.2.1 "a" (.obj [("$eq", .num 1)]) (.obj [("b", .num 2)])
    (by simp [tryIntoOperator, objGet]) (by simp [Value.index, objGet])

/-- C5.  Not negates its nested matcher's verdict and Ne is the negation of
Eq, on every candidate; panics propagate unchanged through the negation. -/
theorem C5_not_ne_negation (m m2 : ObjMatcher) (v : Value) :
    ObjMatcher.matches (.Not m) v =
      (ObjMatcher.matches m v).map (fun b => !b) ∧
    ObjMatcher.matches (.Ne m2) v =
      (ObjMatcher.matches (.Eq m2) v).map (fun b => !b) := by
  constructor
  · rw [ObjMatcher.matches]
    cases ObjMatcher.matches m v with
    | error k => rfl
    | ok b => cases b <;> rfl
  · rw [ObjMatcher.matches]
    rw [ObjMatcher.matches]

/-- C6.  The empty-list operators have fixed verdicts on every candidate:
And of nothing is true, Or and In of nothing are false, Nin of nothing is
true. -/
theorem C6_empty_operator_verdicts (v : Value) :
    ObjMatcher.matches (.And []) v = .ok true ∧
    ObjMatcher.matches (.Or []) v = .ok false ∧
    ObjMatcher.matches (.In []) v = .ok false ∧
    ObjMatcher.matches (.Nin []) v = .ok true := by
  refine ⟨?_, ?_, ?_, ?_⟩ <;>
    simp [ObjMatcher.matches, allMatch, anyMatch, noneMatch]

/-- C7.  On any candidate, when no element of the list panics, And yields the
conjunction of the elements' verdicts and Or (like In) the disjunction; and
De Morgan consistency holds unconditionally: Not of And of two matchers
evaluates exactly as Or of their negations. -/
theorem C7_and_or_demorgan (l : List ObjMatcher) (v : Value)
    (h : ∀ m ∈ l, noPanic (ObjMatcher.matches m v) = true) :
    ObjMatcher.matches (.And l) v =
      .ok (l.all fun m => okTrue (ObjMatcher.matches m v)) ∧
    ObjMatcher.matches (.Or l) v =
      .ok (l.any fun m => okTrue (ObjMatcher.matches m v)) ∧
    ∀ a b : ObjMatcher,
      ObjMatcher.matches (.Not (.And [a, b])) v =
        ObjMatcher.matches (.Or [.Not a, .Not b]) v := by
  refine ⟨?_, ?_, ?_⟩
  · rw [ObjMatcher.matches]
    exact allMatch_all l v h
  · rw [ObjMatcher.matches]
    exact anyMatch_any l v h
  · intro a b
    rcases ha : ObjMatcher.matches a v with k1 | b1 <;>
      rcases hb : ObjMatcher.matches b v with k2 | b2 <;>
      simp [ObjMatcher.matches, allMatch, anyMatch, ha, hb, Except.bind,
        Except.map] <;>
      cases b1 <;> simp [Except.bind] <;> cases b2 <;> simp

/-- C7, witness: the one-element And over the literal 1 against the
candidate 1. -/
theorem C7_witness :
    ObjMatcher.matches (.And [.Value (.num 1)]) (.num 1) =
      .ok ([ObjMatcher.Value (.num 1)].all
        fun m => okTrue (ObjMatcher.matches m (.num 1))) :=
  (C7_and_or_demorgan [.Value (.num 1)] (.num 1)
    (by
      intro m hm
      simp at hm
      subst hm
      simp [ObjMatcher.matches, tryIntoOperator, noPanic])).1

/-- C8.  The matcher built from `{"$or": [{"a": {"$or": [1, 2]}}, {"b": 2}]}`
(an Or whose branches are the literal objects, the nested `$or` being decoded
on the fly during field matching) yields exactly the verdicts of the crate's
test: true for `{"a": 1}` and `{"a": 2}`, false for `{"a": 3}` and
`{"b": 1}`, true for `{"b": 2}`. -/
theorem C8_or_scenario :
    from_str (.obj [("$or", .arr [
        .obj [("a", .obj [("$or", .arr [.num 1, .num 2])])],
        .obj [("b", .num 2)]])]) =
      .ok (.Or [.Value (.obj [("a", .obj [("$or", .arr [.num 1, .num 2])])]),
                .Value (.obj [("b", .num 2)])]) ∧
    ObjMatcher.matches
      (.Or [.Value (.obj [("a", .obj [("$or", .arr [.num 1, .num 2])])]),
            .Value (.obj [("b", .num 2)])]) (.obj [("a", .num 1)]) =
      .ok true ∧
    ObjMatcher.matches
      (.Or [.Value (.obj [("a", .obj [("$or", .arr [.num 1, .num 2])])]),
            .Value (.obj [("b", .num 2)])]) (.obj [("a", .num 2)]) =
      .ok true ∧
    ObjMatcher.matches
      (.Or [.Value (.obj [("a", .obj [("$or", .arr [.num 1, .num 2])])]),
            .Value (.obj [("b", .num 2)])]) (.obj [("a", .num 3)]) =
      .ok false ∧
    ObjMatcher.matches
      (.Or [.Value (.obj [("a", .obj [("$or", .arr [.num 1, .num 2])])]),
            .Value (.obj [("b", .num 2)])]) (.obj [("b", .num 1)]) =
      .ok false ∧
    ObjMatcher.matches
      (.Or [.Value (.obj [("a", .obj [("$or", .arr [.num 1, .num 2])])]),
            .Value (.obj [("b", .num 2)])]) (.obj [("b", .num 2)]) =
      .ok true := by
  refine ⟨?_, ?_, ?_, ?_, ?_, ?_⟩ <;>
    simp [from_str, ObjMatcher.matches, anyMatch, matchFields,
      tryIntoOperator, objGet, deserializeOM, deserializeList, Value.index,
      beqValue, Except.bind]

/-- An object field list carrying at least one of the seven reserved
operator keys at the top level. -/
def hasReservedKey (fields : List (String × Value)) : Bool :=
  (objGet fields "$eq").isSome || (objGet fields "$ne").isSome ||
    (objGet fields "$in").isSome || (objGet fields "$nin").isSome ||
    (objGet fields "$and").isSome || (objGet fields "$not").isSome ||
    (objGet fields "$or").isSome

/-- C9.  Classification of a query node is decided solely by the presence of
a reserved key at the top level of an object node: every non-object node and
every object without a reserved key becomes the literal `Value` variant, and
when reserved keys are present the first match wins in the fixed check order
of the source: a node with `$eq` is always an Eq; with `$in` but not `$eq`,
an In (or the decode panic when the payload is not a list); with `$ne` but
neither earlier key, a Ne; and so on through `$nin`, `$and`, `$not`, `$or`. -/
theorem C9_classification (v : Value) (fields : List (String × Value)) :
    ((∀ o : List (String × Value), v ≠ .obj o) →
      from_str v = .ok (.Value v)) ∧
    (hasReservedKey fields = false →
      from_str (.obj fields) = .ok (.Value (.obj fields))) ∧
    ((objGet fields "$eq").isSome →
      ∃ m, from_str (.obj fields) = .ok (.Eq m)) ∧
    (objGet fields "$eq" = none → (objGet fields "$in").isSome →
      (∃ ms, from_str (.obj fields) = .ok (.In ms)) ∨
        from_str (.obj fields) = .panicked .decodeUnwrap) ∧
    (objGet fields "$eq" = none → objGet fields "$in" = none →
      (objGet fields "$ne").isSome →
      ∃ m, from_str (.obj fields) = .ok (.Ne m)) ∧
    (objGet fields "$eq" = none → objGet fields "$in" = none →
      objGet fields "$ne" = none → (objGet fields "$nin").isSome →
      (∃ ms, from_str (.obj fields) = .ok (.Nin ms)) ∨
        from_str (.obj fields) = .panicked .decodeUnwrap) ∧
    (objGet fields "$eq" = none → objGet fields "$in" = none →
      objGet fields "$ne" = none → objGet fields "$nin" = none →
      (objGet fields "$and").isSome →
      (∃ ms, from_str (.obj fields) = .ok (.And ms)) ∨
        from_str (.obj fields) = .panicked .decodeUnwrap) ∧
    (objGet fields "$eq" = none → objGet fields "$in" = none →
      objGet fields "$ne" = none → objGet fields "$nin" = none →
      objGet fields "$and" = none → (objGet fields "$not").isSome →
      ∃ m, from_str (.obj fields) = .ok (.Not m)) ∧
    (objGet fields "$eq" = none → objGet fields "$in" = none →
      objGet fields "$ne" = none → objGet fields "$nin" = none →
      objGet fields "$and" = none → objGet fields "$not" = none →
      (objGet fields "$or").isSome →
      (∃ ms, from_str (.obj fields) = .ok (.Or ms)) ∨
        from_str (.obj fields) = .panicked .decodeUnwrap) := by
  refine ⟨?_, ?_, ?_, ?_, ?_, ?_, ?_, ?_, ?_⟩
  · intro h
    cases v with
    | obj o => exact absurd rfl (h o)
    | null => simp [from_str, tryIntoOperator]
    | bool b => simp [from_str, tryIntoOperator]
    | num n => simp [from_str, tryIntoOperator]
    | str s => simp [from_str, tryIntoOperator]
    | arr l => simp [from_str, tryIntoOperator]
  · intro h
    simp only [hasReservedKey, Bool.or_eq_false_iff] at h
    obtain ⟨⟨⟨⟨⟨⟨h1, h2⟩, h3⟩, h4⟩, h5⟩, h6⟩, h7⟩ := h
    have e1 : objGet fields "$eq" = none :=
      Option.not_isSome_iff_eq_none.mp (by simp [h1])
    have e2 : objGet fields "$ne" = none :=
      Option.not_isSome_iff_eq_none.mp (by simp [h2])
    have e3 : objGet fields "$in" = none :=
      Option.not_isSome_iff_eq_none.mp (by simp [h3])
    have e4 : objGet fields "$nin" = none :=
      Option.not_isSome_iff_eq_none.mp (by simp [h4])
    have e5 : objGet fields "$and" = none :=
      Option.not_isSome_iff_eq_none.mp (by simp [h5])
    have e6 : objGet fields "$not" = none :=
      Option.not_isSome_iff_eq_none.mp (by simp [h6])
    have e7 : objGet fields "$or" = none :=
      Option.not_isSome_iff_eq_none.mp (by simp [h7])
    simp [from_str, tryIntoOperator, e1, e2, e3, e4, e5, e6, e7]
  · intro h
    obtain ⟨p, hp⟩ := Option.isSome_iff_exists.mp h
    exact ⟨deserializeOM p, by simp [from_str, tryIntoOperator, hp]⟩
  · intro h1 h
    obtain ⟨p, hp⟩ := Option.isSome_iff_exists.mp h
    cases p with
    | arr l => exact .inl ⟨deserializeList l, by simp [from_str, tryIntoOperator, h1, hp]⟩
    | null => exact .inr (by simp [from_str, tryIntoOperator, h1, hp])
    | bool b => exact .inr (by simp [from_str, tryIntoOperator, h1, hp])
    | num n => exact .inr (by simp [from_str, tryIntoOperator, h1, hp])
    | str s => exact .inr (by simp [from_str, tryIntoOperator, h1, hp])
    | obj o => exact .inr (by simp [from_str, tryIntoOperator, h1, hp])
  · intro h1 h2 h
    obtain ⟨p, hp⟩ := Option.isSome_iff_exists.mp h
    exact ⟨deserializeOM p, by simp [from_str, tryIntoOperator, h1, h2, hp]⟩
  · intro h1 h2 h3 h
    obtain ⟨p, hp⟩ := Option.isSome_iff_exists.mp h
    cases p with
    | arr l =>
      exact .inl ⟨deserializeList l, by simp [from_str, tryIntoOperator, h1, h2, h3, hp]⟩
    | null => exact .inr (by simp [from_str, tryIntoOperator, h1, h2, h3, hp])
    | bool b => exact .inr (by simp [from_str, tryIntoOperator, h1, h2, h3, hp])
    | num n => exact .inr (by simp [from_str, tryIntoOperator, h1, h2, h3, hp])
    | str s => exact .inr (by simp [from_str, tryIntoOperator, h1, h2, h3, hp])
    | obj o => exact .inr (by simp [from_str, tryIntoOperator, h1, h2, h3, hp])
  · intro h1 h2 h3 h4 h
    obtain ⟨p, hp⟩ := Option.isSome_iff_exists.mp h
    cases p with
    | arr l =>
      exact .inl ⟨deserializeList l, by simp [from_str, tryIntoOperator, h1, h2, h3, h4, hp]⟩
    | null =>
      exact .inr (by simp [from_str, tryIntoOperator, h1, h2, h3, h4, hp])
    | bool b =>
      exact .inr (by simp [from_str, tryIntoOperator, h1, h2, h3, h4, hp])
    | num n =>
      exact .inr (by simp [from_str, tryIntoOperator, h1, h2, h3, h4, hp])
    | str s =>
      exact .inr (by simp [from_str, tryIntoOperator, h1, h2, h3, h4, hp])
    | obj o =>
      exact .inr (by simp [from_str, tryIntoOperator, h1, h2, h3, h4, hp])
  · intro h1 h2 h3 h4 h5 h
    obtain ⟨p, hp⟩ := Option.isSome_iff_exists.mp h
    exact ⟨deserializeOM p, by simp [from_str, tryIntoOperator, h1, h2, h3, h4, h5, hp]⟩
  · intro h1 h2 h3 h4 h5 h6 h
    obtain ⟨p, hp⟩ := Option.isSome_iff_exists.mp h
    cases p with
    | arr l =>
      exact .inl
        ⟨deserializeList l, by simp [from_str, tryIntoOperator, h1, h2, h3, h4, h5, h6, hp]⟩
    | null =>
      exact .inr (by simp [from_str, tryIntoOperator, h1, h2, h3, h4, h5, h6, hp])
    | bool b =>
      exact .inr (by simp [from_str, tryIntoOperator, h1, h2, h3, h4, h5, h6, hp])
    | num n =>
      exact .inr (by simp [from_str, tryIntoOperator, h1, h2, h3, h4, h5, h6, hp])
    | str s =>
      exact .inr (by simp [from_str, tryIntoOperator, h1, h2, h3, h4, h5, h6, hp])
    | obj o =>
      exact .inr (by simp [from_str, tryIntoOperator, h1, h2, h3, h4, h5, h6, hp])

/-- C9, witness: in the object carrying both `$in` (first, with a malformed
payload) and `$eq`, the `$eq` check wins, so the node classifies as Eq. -/
theorem C9_witness :
    ∃ m, from_str (.obj [("$in", .num 5), ("$eq", .num 1)]) = .ok (.Eq m) :=
  (C9_classification .null [("$in", .num 5), ("$eq", .num 1)]).2.2.1
    (by simp [objGet])

/-- C10.  In literal-object matching, every field value that
`try_into_operator` does not classify as an operator object is compared to
the candidate's value at the same key by full structural value equality --
no matter its kind -- and this comparison never panics; by contrast the same
non-Number kinds at the top of a literal matcher do panic, as the String
example of the last two conjuncts shows. -/
theorem C10_literal_field_equality (key : String) (val : Value)
    (rest : List (String × Value)) (other : Value)
    (h : tryIntoOperator val = none) :
    matchFields ((key, val) :: rest) other =
      (if beqValue val (other.index key) then matchFields rest other
       else .ok false) ∧
    ObjMatcher.matches (.Value (.str "x")) (.str "x") =
      .error .unsupportedValue ∧
    ObjMatcher.matches (.Value (.obj [("a", .str "x")]))
      (.obj [("a", .str "x")]) = .ok true := by
  refine ⟨matchFields_cons_literal h key rest other, ?_, ?_⟩
  · simp [ObjMatcher.matches, tryIntoOperator]
  · simp [ObjMatcher.matches, matchFields, tryIntoOperator, objGet,
      Value.index, beqValue, Except.bind]

/-- C10, witness: the String-valued field of the literal `{"a": "x"}` is
compared by structural equality against the candidate's value at a. -/
theorem C10_witness :
    matchFields [("a", Value.str "x")] (.obj [("a", .str "x")]) =
      (if beqValue (.str "x") ((Value.obj [("a", .str "x")]).index "a")
       then matchFields [] (.obj [("a", .str "x")]) else .ok false) :=
  (C10_literal_field_equality "a" (.str "x") [] (.obj [("a", .str "x")])
    (by simp [tryIntoOperator])).1
